import Mathlib

/-!
Verification development for the simulation progress monitor of this
repository (`src/utils/job_monitor.py`) and its caller
(`src/model_builder/job.py`).

A status-file line is modelled as a list of characters (`Line`).  The
Python string operations used by the monitor (`str.strip`, `str.split`
with no argument, `in` substring test, `str.startswith`,
`str[0].isdigit`) are modelled by executable functions below, and the
Python numeric conversions `int(...)` / `float(...)` are modelled over
`Int` / `ℚ` on the decimal and scientific-literal grammar that the
status file uses.
-/

set_option maxRecDepth 10000

/-- A single text line, as a list of characters. -/
abbrev Line := List Char

/-- Is the first list a prefix of the second (character-wise)? -/
def isPrefixL : Line → Line → Bool
  | [], _ => true
  | _ :: _, [] => false
  | a :: as, b :: bs => a = b && isPrefixL as bs

/-- Python substring test `pat in s`. -/
def containsSub : Line → Line → Bool
  | [], pat => isPrefixL pat []
  | c :: rest, pat => isPrefixL pat (c :: rest) || containsSub rest pat

/-- Python `s.startswith(pat)`. -/
def startsWithL (s pat : Line) : Bool := isPrefixL pat s

/-- Python `s.strip()`: drop leading and trailing whitespace. -/
def stripWs (s : Line) : Line :=
  ((s.dropWhile Char.isWhitespace).reverse.dropWhile Char.isWhitespace).reverse

/-- Helper for `splitWs`: accumulates the current token reversed. -/
def splitWsAux : Line → Line → List Line
  | [], cur => if cur.isEmpty then [] else [cur.reverse]
  | c :: rest, cur =>
    if c.isWhitespace then
      if cur.isEmpty then splitWsAux rest [] else cur.reverse :: splitWsAux rest []
    else splitWsAux rest (c :: cur)

/-- Python `s.split()` with no argument: split on whitespace runs,
dropping empty tokens. -/
def splitWs (s : Line) : List Line := splitWsAux s []

/-- Numeric value of a list of decimal digit characters. -/
def digitsVal (ds : Line) : Nat :=
  ds.foldl (fun a c => 10 * a + (c.toNat - '0'.toNat)) 0

/-- Are all characters decimal digits? -/
def allDigits (ds : Line) : Bool := ds.all Char.isDigit

/-- Modelled Python `int(token)` conversion: optional surrounding
whitespace, optional sign, a nonempty digit string; anything else is a
`ValueError`, modelled as `none`. -/
def pyInt? (s : Line) : Option Int :=
  match stripWs s with
  | '+' :: ds => if !ds.isEmpty && allDigits ds then some ((digitsVal ds : Int)) else none
  | '-' :: ds => if !ds.isEmpty && allDigits ds then some (-(digitsVal ds : Int)) else none
  | ds => if !ds.isEmpty && allDigits ds then some ((digitsVal ds : Int)) else none

/-- Split a token at the first `e`/`E`, returning the mantissa part and
the exponent part when an exponent marker is present. -/
def splitExpMark : Line → Line × Option Line
  | [] => ([], none)
  | c :: rest =>
    if c = 'e' || c = 'E' then ([], some rest)
    else
      let (m, e) := splitExpMark rest
      (c :: m, e)

/-- Split a token at the first `.`, returning the integer part and the
fractional part when a dot is present. -/
def splitDot : Line → Line × Option Line
  | [] => ([], none)
  | c :: rest =>
    if c = '.' then ([], some rest)
    else
      let (a, b) := splitDot rest
      (c :: a, b)

/-- Value of an unsigned decimal mantissa `digits[.digits]`; at least
one digit must be present on one side of the dot. -/
def parseMantissa (m : Line) : Option ℚ :=
  match splitDot m with
  | (ip, none) =>
    if !ip.isEmpty && allDigits ip then some ((digitsVal ip : ℚ)) else none
  | (ip, some fp) =>
    if allDigits ip && allDigits fp && (!ip.isEmpty || !fp.isEmpty) then
      some ((digitsVal ip : ℚ) + (digitsVal fp : ℚ) / (10 : ℚ) ^ fp.length)
    else none

/-- Value of an exponent part: optional sign then a nonempty digit
string. -/
def parseExpPart : Line → Option Int
  | '+' :: ds => if !ds.isEmpty && allDigits ds then some ((digitsVal ds : Int)) else none
  | '-' :: ds => if !ds.isEmpty && allDigits ds then some (-(digitsVal ds : Int)) else none
  | ds => if !ds.isEmpty && allDigits ds then some ((digitsVal ds : Int)) else none

/-- Value of an unsigned float literal `mantissa[(e|E)exponent]`. -/
def pyFloatUnsigned (u : Line) : Option ℚ :=
  match splitExpMark u with
  | (m, none) => parseMantissa m
  | (m, some e) =>
    match parseMantissa m, parseExpPart e with
    | some q, some ex => some (q * (10 : ℚ) ^ ex)
    | _, _ => none

/-- Modelled Python `float(token)` conversion on finite decimal and
scientific literals (optional surrounding whitespace, optional sign,
digits with optional fraction, optional `e`/`E` exponent); `inf`/`nan`
and underscore forms are outside the model and the status-file grammar.
Failure (`ValueError`) is modelled as `none`, exact values as `ℚ`. -/
def pyFloat? (s : Line) : Option ℚ :=
  match stripWs s with
  | '+' :: rest => pyFloatUnsigned rest
  | '-' :: rest => (pyFloatUnsigned rest).map (fun q => -q)
  | t => pyFloatUnsigned t

/-! ## Fixed marker strings from `job_monitor.py` -/

/-- Marker of the progress-table anchor line. -/
def solutionProgressMarker : Line := "SOLUTION PROGRESS".toList

/-- Success completion marker. -/
def successMarker : Line := "THE ANALYSIS HAS COMPLETED SUCCESSFULLY".toList

/-- Abort completion marker. -/
def abortedMarker : Line := "ANALYSIS ABORTED".toList

/-- Termination completion marker. -/
def terminatedMarker : Line := "ANALYSIS TERMINATED".toList

/-- Header pattern piece. -/
def stepHeadMarker : Line := "STEP".toList

/-- Header pattern piece. -/
def originMarker : Line := "ORIGIN".toList

/-- Header pattern piece. -/
def totalMarker : Line := "TOTAL".toList

/-- Header pattern piece. -/
def wallMarker : Line := "WALL".toList

/-- Header pattern piece. -/
def incrementHeadMarker : Line := "INCREMENT".toList

/-- Header pattern piece. -/
def timeMarker : Line := "TIME".toList

/-- Suppressed-noise pattern. -/
def instanceCriticalMarker : Line := "INSTANCE WITH CRITICAL".toList

/-- Suppressed-noise pattern. -/
def outputFieldFrameMarker : Line := "Output Field Frame".toList

/-- Scientific-notation marker `E+`. -/
def sciPlusMarker : Line := "E+".toList

/-- Scientific-notation marker `E-`. -/
def sciMinusMarker : Line := "E-".toList

/-! ## Classifier functions (`job_monitor.py`) -/

/-- `_find_solution_progress_section` search helper carrying the index. -/
def find_sps_aux : List Line → Nat → Int
  | [], _ => -1
  | l :: rest, i =>
    if containsSub l solutionProgressMarker then (i : Int) else find_sps_aux rest (i + 1)

/-- `_find_solution_progress_section`: index of the first line containing
the progress anchor, `-1` when absent. -/
def find_solution_progress_section (lines : List Line) : Int :=
  find_sps_aux lines 0

/-- `_is_header_line`: unwanted column-header lines. -/
def is_header_line (line : Line) : Bool :=
  (startsWithL line stepHeadMarker && containsSub line originMarker)
  || (startsWithL line stepHeadMarker && containsSub line totalMarker
      && containsSub line wallMarker)
  || (startsWithL line incrementHeadMarker && containsSub line timeMarker)

/-- `_is_increment_data_line`: nonempty, first character a digit, and
containing both `E+` and `E-`. -/
def is_increment_data_line (line : Line) : Bool :=
  match line with
  | [] => false
  | c :: rest => c.isDigit && containsSub (c :: rest) sciPlusMarker
      && containsSub (c :: rest) sciMinusMarker

/-- `_should_skip_line`: known noise prefixes dropped without emission. -/
def should_skip_line (line : Line) : Bool :=
  startsWithL line instanceCriticalMarker || startsWithL line outputFieldFrameMarker

/-- One parsed progress sample (`_parse_increment_data`'s dict). -/
structure IncrementRecord where
  increment : Int
  step_time : ℚ
  total_time : ℚ
  wall_time : Line
  stable_inc : ℚ
  kinetic_energy : ℚ
  total_energy : ℚ
deriving DecidableEq, Repr

/-- `_parse_increment_data`: positional conversion of the split tokens;
a missing index (`IndexError`, in particular index 7 on an exactly
7-token line) or a failed numeric conversion (`ValueError`) yields
`none`. -/
def parse_increment_data (values : List Line) : Option IncrementRecord :=
  (values.get? 0).bind fun t0 =>
  (pyInt? t0).bind fun increment =>
  (values.get? 1).bind fun t1 =>
  (pyFloat? t1).bind fun step_time =>
  (values.get? 2).bind fun t2 =>
  (pyFloat? t2).bind fun total_time =>
  (values.get? 3).bind fun wall_time =>
  (values.get? 4).bind fun t4 =>
  (pyFloat? t4).bind fun stable_inc =>
  (values.get? 6).bind fun t6 =>
  (pyFloat? t6).bind fun kinetic_energy =>
  (values.get? 7).bind fun t7 =>
  (pyFloat? t7).bind fun total_energy =>
  some ⟨increment, step_time, total_time, wall_time, stable_inc, kinetic_energy,
    total_energy⟩

example : pyInt? ("12".toList) = some 12 := by decide
example : pyFloat? ("10".toList) = some 10 := by decide
example : pyFloat? ("-3".toList) = some (-3) := by decide
example : pyFloat? ("x1".toList) = none := by decide
example : splitWs (" a bc  d ".toList) = ["a".toList, "bc".toList, "d".toList] := by decide
example : containsSub ("xxTHE ANALYSIS HAS COMPLETED SUCCESSFULLYzz".toList) successMarker = true := by decide
example : is_increment_data_line ("1 2.0E+0 3.0E-1 a b c".toList) = true := by decide

/-! ## Monitor state and loop (`monitor_job`) -/

/-- Mutable monitoring state of one `monitor_job` session. -/
structure MonitorState where
  last_printed_line_index : Int
  header_printed : Bool
  previous_ke : Option ℚ
  min_ke : Option ℚ
  ke_increasing_count : Nat
deriving DecidableEq, Repr

/-- The state at the start of a `monitor_job` session. -/
def initial_state : MonitorState := ⟨-1, false, none, none, 0⟩

/-- One observable emission of the monitor (a `log_func`/`log_section`
call, abstracted to the data it reports). -/
inductive LogEvent where
  | header : LogEvent
  | record : IncrementRecord → LogEvent
  | raw : Line → LogEvent
  | keStop : ℚ → ℚ → LogEvent
  | jobCompleted : Bool → LogEvent
  | waiting : LogEvent
deriving DecidableEq, Repr

/-- `_check_ke_minimum`: returns the updated minimum, the updated
increasing streak and the early-stop flag, together with the log lines
it emits. -/
def check_ke_minimum (kinetic_energy : ℚ) (previous_ke : Option ℚ) (min_ke : Option ℚ)
    (ke_increasing_count : Nat) : Option ℚ × Nat × Bool × List LogEvent :=
  match previous_ke with
  | none => (min_ke, ke_increasing_count, false, [])
  | some p =>
    match min_ke with
    | none => (some kinetic_energy, 0, false, [])
    | some m =>
      if kinetic_energy < m then (some kinetic_energy, 0, false, [])
      else if p < kinetic_energy then
        if 3 ≤ ke_increasing_count + 1 then
          (some m, ke_increasing_count + 1, true, [LogEvent.keStop m kinetic_energy])
        else (some m, ke_increasing_count + 1, false, [])
      else (some m, 0, false, [])

/-- `_check_completion_status`: `(has_status, success)` plus emissions. -/
def check_completion_status (line : Line) : Bool × Bool × List LogEvent :=
  if containsSub line successMarker then (true, true, [LogEvent.jobCompleted true])
  else if containsSub line abortedMarker || containsSub line terminatedMarker then
    (true, false, [LogEvent.jobCompleted false])
  else (false, false, [])

/-- The body of `monitor_job`'s inner `for` loop on line index `i`:
returns `some b` when `monitor_job` returns `b` at this line, `none`
when the loop moves on, together with the updated state and the
emissions of this iteration. -/
def process_line (i : Nat) (rawLine : Line) (st : MonitorState) :
    Option Bool × MonitorState × List LogEvent :=
  let line := stripWs rawLine
  match check_completion_status line with
  | (true, success, ev) => (some success, st, ev)
  | (false, _, _) =>
    if is_header_line line then
      (none, { st with last_printed_line_index := (i : Int) }, [])
    else if is_increment_data_line line then
      if 7 ≤ (splitWs line).length then
        match parse_increment_data (splitWs line) with
        | some data =>
          match check_ke_minimum data.kinetic_energy st.previous_ke st.min_ke
              st.ke_increasing_count with
          | (min_ke', cnt', true, evk) =>
            (some true,
              { st with header_printed := true, min_ke := min_ke',
                        ke_increasing_count := cnt' },
              (if st.header_printed then [] else [LogEvent.header])
                ++ [LogEvent.record data] ++ evk)
          | (min_ke', cnt', false, evk) =>
            (none,
              { last_printed_line_index := (i : Int), header_printed := true,
                previous_ke := some data.kinetic_energy, min_ke := min_ke',
                ke_increasing_count := cnt' },
              (if st.header_printed then [] else [LogEvent.header])
                ++ [LogEvent.record data] ++ evk)
        | none =>
          (none, { st with last_printed_line_index := (i : Int) },
            if line.isEmpty then [] else [LogEvent.raw line])
      else
        (none, { st with last_printed_line_index := (i : Int) }, [])
    else
      (none, { st with last_printed_line_index := (i : Int) },
        if !line.isEmpty && !should_skip_line line then [LogEvent.raw line] else [])

/-- The inner `for` loop of `monitor_job`, iterating `process_line`
over the given lines, the first carrying index `i`. -/
def run_lines_from : List Line → Nat → MonitorState →
    Option Bool × MonitorState × List LogEvent
  | [], _, st => (none, st, [])
  | l :: rest, i, st =>
    match process_line i l st with
    | (some b, st', ev) => (some b, st', ev)
    | (none, st', ev) =>
      let (r, st'', ev') := run_lines_from rest (i + 1) st'
      (r, st'', ev ++ ev')

/-- One successful read of the status file in `monitor_job`: locate the
progress anchor, and when found run the loop from
`max (anchor + 2) (last_printed_line_index + 1)` to the end of file. -/
def process_file (lines : List Line) (st : MonitorState) :
    Option Bool × MonitorState × List LogEvent :=
  let spi := find_solution_progress_section lines
  if 0 ≤ spi then
    let lo := max (spi + 2) (st.last_printed_line_index + 1)
    run_lines_from (lines.drop lo.toNat) lo.toNat st
  else (none, st, [])

/-- One poll of `monitor_job`: a missing file (`FileNotFoundError`)
emits the waiting notice and leaves the state unchanged; a present file
is processed in full. -/
def poll_step (file? : Option (List Line)) (st : MonitorState) :
    Option Bool × MonitorState × List LogEvent :=
  match file? with
  | none => (none, st, [LogEvent.waiting])
  | some lines => process_file lines st

/-- A `monitor_job` session over a sequence of poll observations of the
status file (`none` = file absent at that poll): returns `some b` once
a poll returns, `none` when the supplied polls are exhausted without a
terminal result. -/
def monitor_run : List (Option (List Line)) → MonitorState →
    Option Bool × MonitorState × List LogEvent
  | [], st => (none, st, [])
  | f :: fs, st =>
    match poll_step f st with
    | (some b, st', ev) => (some b, st', ev)
    | (none, st', ev) =>
      let (r, st'', ev') := monitor_run fs st'
      (r, st'', ev ++ ev')

/-! ## The kinetic-energy tracker as used by `monitor_job` -/

/-- The tracker portion of the monitor state: `previous_ke`, `min_ke`
and the increasing streak, as threaded through `_check_ke_minimum` by
`monitor_job`. -/
structure TrackerState where
  previous_ke : Option ℚ
  min_ke : Option ℚ
  cnt : Nat
deriving DecidableEq, Repr

/-- The tracker state before any sample. -/
def initial_tracker : TrackerState := ⟨none, none, 0⟩

/-- Feeding one successfully parsed kinetic-energy sample to
`_check_ke_minimum` exactly as `monitor_job` does: on a stop signal the
loop returns at once (so `previous_ke` is not updated); otherwise
`previous_ke` is set to the sample. -/
def tracker_step (st : TrackerState) (ke : ℚ) : TrackerState × Bool :=
  match check_ke_minimum ke st.previous_ke st.min_ke st.cnt with
  | (min_ke', cnt', true, _) => ({ st with min_ke := min_ke', cnt := cnt' }, true)
  | (min_ke', cnt', false, _) => (⟨some ke, min_ke', cnt'⟩, false)

/-- Feeding a list of samples in order, counting samples from `k`;
returns the final state and `some j` when the stop signal fired upon
processing the `j`-th sample (1-based), in which case no later sample
is processed. -/
def tracker_run_aux : List ℚ → TrackerState → Nat → TrackerState × Option Nat
  | [], st, _ => (st, none)
  | ke :: rest, st, k =>
    match tracker_step st ke with
    | (st', true) => (st', some (k + 1))
    | (st', false) => tracker_run_aux rest st' (k + 1)

/-- Feeding a list of samples to a fresh tracker. -/
def tracker_run (kes : List ℚ) : TrackerState × Option Nat :=
  tracker_run_aux kes initial_tracker 0

/-! ## Job submission (`job.py`, `create_and_submit_job`) -/

/-- External effects of `create_and_submit_job`, in order. -/
inductive JobAction where
  | submit : JobAction
  | printDone : JobAction
  | kill : JobAction
  | terminate : Line → JobAction
deriving DecidableEq, Repr

/-- `create_and_submit_job`, abstracted to its externally visible
actions: it always creates and submits the job; with `wait` set it runs
`monitor_job` on the job's status file, whose boolean outcome is the
`monitorResult` parameter here (the monitor is the collaborator modelled
by `monitor_run`). On a `true` outcome it prints a message, calls
`job.kill()` and issues the job-name-scoped `abaqus terminate` command;
on a `false` outcome it does none of these. -/
def create_and_submit_job (jobName : Line) (wait : Bool) (monitorResult : Bool) :
    List JobAction :=
  [JobAction.submit] ++
    (if wait then
      (if monitorResult then
        [JobAction.printDone, JobAction.kill, JobAction.terminate jobName]
      else [])
    else [])

example : (tracker_run [10, 8, 6, 7, 9, 11]).2 = some 6 := by decide
example : (tracker_run [10, 8, 9, 7, 9, 10, 11]).2 = some 7 := by decide
example : (tracker_run [(5:ℚ), 10]).1.min_ke = some 10 := by decide

/-! ## Concrete status-file material used in witnesses and
counterexamples -/

/-- An anchor line as written by the solver. -/
def anchorLine : Line := "  SOLUTION PROGRESS".toList

/-- A line at index anchor+1; never consumed (consumption starts at
anchor+2). -/
def fillerLine : Line := " (from step 1)".toList

/-- A line holding exactly the success completion marker. -/
def successOnlyLine : Line := "THE ANALYSIS HAS COMPLETED SUCCESSFULLY".toList

/-- A plain noise line: emitted verbatim. -/
def noiseLine : Line := "some mesh noise".toList

/-- A well-formed data line (8 tokens; the scientific-notation markers
sit in the display-only wall-time token and in the ignored token 5). -/
def goodLine8 : Line := "1 2 3 0E+0 5 0E-0 7 8".toList

/-- A data-shaped line with exactly 7 tokens, all individually valid:
structured parsing hits the missing token 7 (`IndexError`). -/
def line7 : Line := "1 2 3 0E+0 5 0E-0 7".toList

/-- A data-shaped line with only 6 tokens. -/
def line6 : Line := "1 2.0E+0 3.0E-1 a b c".toList

/-- A data-shaped line with 7 tokens whose kinetic-energy field is not
numeric (`ValueError`). -/
def badLine7 : Line := "1 2 3 0E+0 5 0E-0 x".toList

/-- Data lines whose kinetic-energy samples are 10, 8, 6, 7, 9, 11. -/
def dataKe10 : Line := "1 1 2 0E+0 3 0E-0 10 50".toList

/-- Data line, kinetic energy 8. -/
def dataKe8 : Line := "2 1 2 0E+0 3 0E-0 8 50".toList

/-- Data line, kinetic energy 6. -/
def dataKe6 : Line := "3 1 2 0E+0 3 0E-0 6 50".toList

/-- Data line, kinetic energy 7. -/
def dataKe7 : Line := "4 1 2 0E+0 3 0E-0 7 50".toList

/-- Data line, kinetic energy 9. -/
def dataKe9 : Line := "5 1 2 0E+0 3 0E-0 9 50".toList

/-- Data line, kinetic energy 11. -/
def dataKe11 : Line := "6 1 2 0E+0 3 0E-0 11 50".toList

/-- A status file with no completion marker whose kinetic-energy samples
are 10, 8, 6, 7, 9, 11: the early-stop heuristic fires on the last. -/
def staEarlyStop : List Line :=
  [anchorLine, fillerLine, dataKe10, dataKe8, dataKe6, dataKe7, dataKe9, dataKe11]

/-- A status file whose progress anchor is present and whose streamed
region ends in the success marker. -/
def staSuccess : List Line := [anchorLine, fillerLine, noiseLine, successOnlyLine]

example : (process_file staEarlyStop initial_state).1 = some true := by decide
example : (process_file staSuccess initial_state).1 = some true := by decide

/-! ## Helper lemmas -/

/-- A prefix test against a list starting with a different character
fails. -/
lemma isPrefixL_cons_ne (a : Char) (as : Line) (c : Char) (rest : Line) (h : a ≠ c) :
    isPrefixL (a :: as) (c :: rest) = false := by
  simp [isPrefixL, h]

/-- A line whose first character is a digit is never a header line. -/
lemma not_header_of_digit (c : Char) (rest : Line) (h : c.isDigit = true) :
    is_header_line (c :: rest) = false := by
  have hS : 'S' ≠ c := by
    intro e; rw [← e] at h; exact absurd h (by decide)
  have hI : 'I' ≠ c := by
    intro e; rw [← e] at h; exact absurd h (by decide)
  have e1 : startsWithL (c :: rest) stepHeadMarker = false := by
    have e : stepHeadMarker = 'S' :: ['T', 'E', 'P'] := rfl
    rw [startsWithL, e]
    exact isPrefixL_cons_ne _ _ _ _ hS
  have e2 : startsWithL (c :: rest) incrementHeadMarker = false := by
    have e : incrementHeadMarker = 'I' :: ['N', 'C', 'R', 'E', 'M', 'E', 'N', 'T'] := rfl
    rw [startsWithL, e]
    exact isPrefixL_cons_ne _ _ _ _ hI
  simp [is_header_line, e1, e2]

/-- An increment-shaped line is nonempty. -/
lemma nonempty_of_increment (line : Line) (h : is_increment_data_line line = true) :
    line.isEmpty = false := by
  cases line with
  | nil => simp [is_increment_data_line] at h
  | cons c rest => rfl

/-- A line containing the success marker is classified as a successful
completion. -/
lemma check_completion_success (line : Line) (h : containsSub line successMarker = true) :
    check_completion_status line = (true, true, [LogEvent.jobCompleted true]) := by
  simp [check_completion_status, h]

/-- A line containing an abort or termination marker but no success
marker is classified as a failed completion. -/
lemma check_completion_failure (line : Line) (h1 : containsSub line successMarker = false)
    (h2 : (containsSub line abortedMarker || containsSub line terminatedMarker) = true) :
    check_completion_status line = (true, false, [LogEvent.jobCompleted false]) := by
  simp only [check_completion_status, h1, h2]
  simp

/-- A line containing no completion marker produces no status. -/
lemma check_completion_none (line : Line) (h1 : containsSub line successMarker = false)
    (h2 : containsSub line abortedMarker = false)
    (h3 : containsSub line terminatedMarker = false) :
    check_completion_status line = (false, false, []) := by
  simp [check_completion_status, h1, h2, h3]

/-- `process_line` returns at once when the stripped line carries a
completion status. -/
lemma process_line_completion (i : Nat) (rawLine : Line) (st : MonitorState)
    (b : Bool) (ev : List LogEvent)
    (h : check_completion_status (stripWs rawLine) = (true, b, ev)) :
    process_line i rawLine st = (some b, st, ev) := by
  simp only [process_line]
  rw [h]

/-! ## Claim C9 -/

/-- C9: with `wait` enabled, a `true` outcome of `monitor_job` makes
`create_and_submit_job` print the notice, call `job.kill()` and issue
the job-name-scoped terminate command; a `false` outcome triggers none
of these, leaving only the submission. -/
theorem C9_termination_on_success (jobName : Line) :
    create_and_submit_job jobName true true =
      [JobAction.submit, JobAction.printDone, JobAction.kill,
        JobAction.terminate jobName] ∧
    create_and_submit_job jobName true false = [JobAction.submit] :=
  ⟨rfl, rfl⟩

/-! ## Claim C1 -/

/-- C1 counterexample: a status file consisting of exactly one line, the
success marker, but no progress anchor, yields no outcome from a full
poll (and leaves the state unchanged, so every later poll of the same
file also yields nothing); a success marker placed before the anchor is
likewise never detected. -/
theorem C1_counterexample :
    process_file [successOnlyLine] initial_state = (none, initial_state, []) ∧
    (process_file [successOnlyLine, anchorLine, fillerLine, noiseLine]
        initial_state).1 = none := by
  decide

/-- C1 (amended): for every line that the monitor actually processes,
completion detection is immediate and takes precedence over all other
classification, independently of the tracker state, the header flag and
the line index; but processing is gated on the progress anchor — a file
with no anchor is never scanned for completion markers at all, and
consumption starts only at index anchor+2. -/
theorem C1_corrected :
    (∀ (i : Nat) (rawLine : Line) (st : MonitorState),
      containsSub (stripWs rawLine) successMarker = true →
      process_line i rawLine st = (some true, st, [LogEvent.jobCompleted true])) ∧
    (∀ (i : Nat) (rawLine : Line) (st : MonitorState),
      containsSub (stripWs rawLine) successMarker = false →
      (containsSub (stripWs rawLine) abortedMarker
          || containsSub (stripWs rawLine) terminatedMarker) = true →
      process_line i rawLine st = (some false, st, [LogEvent.jobCompleted false])) ∧
    (∀ (lines : List Line) (st : MonitorState),
      find_solution_progress_section lines = -1 →
      process_file lines st = (none, st, [])) := by
  refine ⟨?_, ?_, ?_⟩
  · intro i rawLine st h
    exact process_line_completion i rawLine st true _ (check_completion_success _ h)
  · intro i rawLine st h1 h2
    exact process_line_completion i rawLine st false _ (check_completion_failure _ h1 h2)
  · intro lines st h
    simp [process_file, h]

/-- C1 witness: the success marker returns `true` at an arbitrary line
index from a mid-session state with a nonempty tracker. -/
theorem C1_witness :
    process_line 5 successOnlyLine (⟨7, true, some 3, some 2, 2⟩ : MonitorState)
      = (some true, (⟨7, true, some 3, some 2, 2⟩ : MonitorState),
          [LogEvent.jobCompleted true]) :=
  C1_corrected.1 5 successOnlyLine ⟨7, true, some 3, some 2, 2⟩ (by decide)

/-! ## Claim C2 -/

/-- C2 counterexample: an increment-shaped line splitting into exactly 7
tokens, every present field individually valid, is not parsed into a
record — `_parse_increment_data` reads token index 7, which does not
exist (`IndexError`), and the line falls back to verbatim emission. -/
theorem C2_counterexample :
    is_increment_data_line line7 = true ∧
    (splitWs line7).length = 7 ∧
    parse_increment_data (splitWs line7) = none ∧
    process_line 0 line7 initial_state =
      (none, (⟨0, false, none, none, 0⟩ : MonitorState), [LogEvent.raw line7]) := by
  decide

/-- C2 (amended): a successful structured parse requires tokens at
indices 0–4, 6 and 7 — hence at least 8 tokens — and numeric
convertibility of the fields at 0, 1, 2, 4, 6 and 7, mapped positionally
as claimed with token 3 kept as a string; token 5 is ignored entirely
(replacing it never changes the parse); any list of at most 7 tokens
yields no record. Lines with at least 7 tokens are merely attempted:
an exactly-7-token line always fails and is emitted verbatim instead. -/
theorem C2_corrected :
    (∀ (values : List Line) (t0 t1 t2 t3 t4 t6 t7 : Line) (n : Int)
        (r1 r2 r4 r6 r7 : ℚ),
      values.get? 0 = some t0 → values.get? 1 = some t1 →
      values.get? 2 = some t2 → values.get? 3 = some t3 →
      values.get? 4 = some t4 → values.get? 6 = some t6 →
      values.get? 7 = some t7 →
      pyInt? t0 = some n → pyFloat? t1 = some r1 → pyFloat? t2 = some r2 →
      pyFloat? t4 = some r4 → pyFloat? t6 = some r6 → pyFloat? t7 = some r7 →
      parse_increment_data values = some ⟨n, r1, r2, t3, r4, r6, r7⟩) ∧
    (∀ (values : List Line) (r : IncrementRecord),
      parse_increment_data values = some r → 8 ≤ values.length) ∧
    (∀ (values : List Line) (x : Line),
      parse_increment_data (values.set 5 x) = parse_increment_data values) := by
  refine ⟨?_, ?_, ?_⟩
  · intro values t0 t1 t2 t3 t4 t6 t7 n r1 r2 r4 r6 r7 h0 h1 h2 h3 h4 h6 h7
      p0 p1 p2 p4 p6 p7
    simp only [parse_increment_data, h0, h1, h2, h3, h4, h6, h7, p0, p1, p2, p4,
      p6, p7, Option.some_bind]
  · intro values r h
    simp only [parse_increment_data, Option.bind_eq_some] at h
    obtain ⟨t0, e0, i0, ei0, t1, e1, s1, es1, t2, e2, s2, es2, t3, e3, t4, e4, s4,
      es4, t6, e6, s6, es6, t7, e7, s7, es7, hfin⟩ := h
    have h7n : ¬ values.length ≤ 7 := fun hl => by
      rw [List.get?_eq_none.mpr hl] at e7; cases e7
    omega
  · intro values x
    have g : ∀ n : Nat, n ≠ 5 → (values.set 5 x).get? n = values.get? n := fun n hn =>
      List.get?_set_ne x values (fun e => hn e.symm)
    simp only [parse_increment_data, g 0 (by decide), g 1 (by decide), g 2 (by decide),
      g 3 (by decide), g 4 (by decide), g 6 (by decide), g 7 (by decide)]

/-- C2 witness: a valid 8-token data line parses with the positional
mapping. -/
theorem C2_witness :
    parse_increment_data (splitWs goodLine8) =
      some ⟨1, 2, 3, ['0', 'E', '+', '0'], 5, 7, 8⟩ :=
  C2_corrected.1 (splitWs goodLine8) ['1'] ['2'] ['3'] ['0', 'E', '+', '0'] ['5']
    ['7'] ['8'] 1 2 3 5 7 8 (by decide) (by decide) (by decide) (by decide)
    (by decide) (by decide) (by decide) (by decide) (by decide) (by decide)
    (by decide) (by decide) (by decide)

/-! ## Claim C3 -/

/-- C3 counterexample: an increment-shaped line with fewer than 7 tokens
fails structured parsing because of its token count, yet is not emitted
verbatim — it is dropped silently (no emission at all), only advancing
the consumed index. -/
theorem C3_counterexample :
    is_increment_data_line line6 = true ∧
    (splitWs line6).length = 6 ∧
    process_line 0 line6 initial_state =
      (none, (⟨0, false, none, none, 0⟩ : MonitorState), []) := by
  decide

/-- C3 (amended): for an increment-shaped line with no completion
marker, a failed structured parse never raises and never stops the loop
(the result is `none` and the consumed index advances to the line), but
verbatim emission happens only when the line has at least 7 tokens (the
`except` path); an increment-shaped line with fewer than 7 tokens is
skipped with no emission at all. -/
theorem C3_corrected :
    (∀ (i : Nat) (rawLine : Line) (st : MonitorState),
      containsSub (stripWs rawLine) successMarker = false →
      containsSub (stripWs rawLine) abortedMarker = false →
      containsSub (stripWs rawLine) terminatedMarker = false →
      is_increment_data_line (stripWs rawLine) = true →
      7 ≤ (splitWs (stripWs rawLine)).length →
      parse_increment_data (splitWs (stripWs rawLine)) = none →
      process_line i rawLine st =
        (none, { st with last_printed_line_index := (i : Int) },
          [LogEvent.raw (stripWs rawLine)])) ∧
    (∀ (i : Nat) (rawLine : Line) (st : MonitorState),
      containsSub (stripWs rawLine) successMarker = false →
      containsSub (stripWs rawLine) abortedMarker = false →
      containsSub (stripWs rawLine) terminatedMarker = false →
      is_increment_data_line (stripWs rawLine) = true →
      (splitWs (stripWs rawLine)).length < 7 →
      process_line i rawLine st =
        (none, { st with last_printed_line_index := (i : Int) }, [])) := by
  constructor
  · intro i rawLine st hs ha ht hinc hlen hparse
    have hcc : check_completion_status (stripWs rawLine) = (false, false, []) :=
      check_completion_none _ hs ha ht
    simp only [process_line, hcc]
    rcases hl : stripWs rawLine with _ | ⟨c, rest⟩
    · rw [hl] at hinc; simp [is_increment_data_line] at hinc
    · rw [hl] at hinc hlen hparse
      have hd : c.isDigit = true := by
        have h' := hinc
        simp only [is_increment_data_line, Bool.and_eq_true] at h'
        exact h'.1.1
      simp [not_header_of_digit c rest hd, hinc, hlen, hparse]
  · intro i rawLine st hs ha ht hinc hlen
    have hcc : check_completion_status (stripWs rawLine) = (false, false, []) :=
      check_completion_none _ hs ha ht
    simp only [process_line, hcc]
    rcases hl : stripWs rawLine with _ | ⟨c, rest⟩
    · rw [hl] at hinc; simp [is_increment_data_line] at hinc
    · rw [hl] at hinc hlen
      have hd : c.isDigit = true := by
        have h' := hinc
        simp only [is_increment_data_line, Bool.and_eq_true] at h'
        exact h'.1.1
      simp [not_header_of_digit c rest hd, hinc, Nat.not_le.mpr hlen]

/-- C3 witness: a 7-token data-shaped line with a non-numeric
kinetic-energy field is emitted verbatim and the loop continues. -/
theorem C3_witness :
    process_line 4 badLine7 initial_state =
      (none, (⟨4, false, none, none, 0⟩ : MonitorState), [LogEvent.raw badLine7]) :=
  C3_corrected.1 4 badLine7 initial_state (by decide) (by decide) (by decide)
    (by decide) (by decide) (by decide)

/-! ## Claim C8 -/

/-- C8 counterexample: the status file is absent for one poll and then
appears containing a success marker but no progress anchor; the poll of
the complete file yields no outcome and leaves the state unchanged (so
the monitor re-polls forever): three further polls of the same file
still produce nothing beyond the single waiting notice. -/
theorem C8_counterexample :
    monitor_run ((none : Option (List Line)) :: List.replicate 3 (some [successOnlyLine]))
      initial_state = (none, initial_state, [LogEvent.waiting]) := by
  decide

/-- A poll with the file absent emits the waiting notice and defers to
the rest of the session unchanged. -/
lemma monitor_run_cons_none (fs : List (Option (List Line))) (st : MonitorState)
    (r : Option Bool) (st'' : MonitorState) (ev' : List LogEvent)
    (h : monitor_run fs st = (r, st'', ev')) :
    monitor_run ((none : Option (List Line)) :: fs) st =
      (r, st'', LogEvent.waiting :: ev') := by
  simp only [monitor_run, poll_step, h, List.singleton_append]

/-- C8 (amended): a missing status file is purely retryable — each
failed poll emits exactly one waiting notice and leaves the state
untouched; if after `N` absent polls the file appears and a full poll of
it from the initial state succeeds (which holds when the progress anchor
is present with a success marker in the streamed region after it), the
session returns `true` with exactly `N` waiting notices followed by that
poll's emissions. -/
theorem C8_corrected (N : Nat) (file : List Line) (st' : MonitorState)
    (ev : List LogEvent)
    (h : process_file file initial_state = (some true, st', ev)) :
    monitor_run (List.replicate N (none : Option (List Line)) ++ [some file])
      initial_state = (some true, st', List.replicate N LogEvent.waiting ++ ev) := by
  induction N with
  | zero =>
    simp only [List.replicate, List.nil_append, monitor_run, poll_step, h]
  | succ n ih =>
    have e : List.replicate (n + 1) (none : Option (List Line)) ++ [some file]
        = none :: (List.replicate n none ++ [some file]) := rfl
    rw [e]
    exact monitor_run_cons_none _ _ _ _ _ ih

/-- C8 witness: two absent polls, then a file whose streamed region ends
in the success marker: outcome `true` with exactly two waiting notices. -/
theorem C8_witness :
    monitor_run (List.replicate 2 (none : Option (List Line)) ++ [some staSuccess])
      initial_state =
      (some true, (⟨2, false, none, none, 0⟩ : MonitorState),
        List.replicate 2 LogEvent.waiting
          ++ [LogEvent.raw noiseLine, LogEvent.jobCompleted true]) :=
  C8_corrected 2 staSuccess ⟨2, false, none, none, 0⟩
    [LogEvent.raw noiseLine, LogEvent.jobCompleted true] (by decide)

/-! ## Claim C7: consumed-index lemmas -/

/-- Each loop iteration either keeps the consumed index (when it
returns) or sets it to the line's own index. -/
lemma process_line_state (i : Nat) (l : Line) (st : MonitorState) :
    (process_line i l st).2.1.last_printed_line_index = st.last_printed_line_index ∨
    (process_line i l st).2.1.last_printed_line_index = (i : Int) := by
  simp only [process_line]
  repeat' split
  all_goals first | exact Or.inl rfl | exact Or.inr rfl

/-- A non-returning iteration always advances the consumed index to the
line's index. -/
lemma process_line_none_last (i : Nat) (l : Line) (st : MonitorState)
    (st' : MonitorState) (ev : List LogEvent)
    (h : process_line i l st = (none, st', ev)) :
    st'.last_printed_line_index = (i : Int) := by
  simp only [process_line] at h
  repeat' split at h
  all_goals simp only [Prod.mk.injEq] at h
  all_goals first
    | exact Option.noConfusion h.1
    | (rw [← h.2.1])

/-- The consumed index never decreases across the inner loop, provided
it starts below the first index to visit. -/
lemma run_lines_from_mono (ls : List Line) (i : Nat) (st : MonitorState)
    (hi : st.last_printed_line_index < (i : Int)) :
    st.last_printed_line_index ≤
      (run_lines_from ls i st).2.1.last_printed_line_index := by
  induction ls generalizing i st with
  | nil => simp [run_lines_from]
  | cons l rest ih =>
    simp only [run_lines_from]
    rcases hpl : process_line i l st with ⟨r, st1, ev1⟩
    have hst1 : st1.last_printed_line_index = st.last_printed_line_index ∨
        st1.last_printed_line_index = (i : Int) := by
      have := process_line_state i l st
      rw [hpl] at this
      exact this
    rcases r with _ | b
    · rcases hr : run_lines_from rest (i + 1) st1 with ⟨r2, st2, ev2⟩
      have h2 := ih (i + 1) st1 (by
        have := process_line_none_last i l st st1 ev1 hpl
        rw [this]; push_cast; omega)
      rw [hr] at h2
      simp only at h2
      simp only [hpl, hr]
      rcases hst1 with h | h <;> omega
    · simp only [hpl]
      rcases hst1 with h | h <;> omega

/-- After a completed (non-returning) pass, the consumed index points
to the last visited line (or the loop visited nothing and the state is
unchanged). -/
lemma run_lines_from_none_last (ls : List Line) (i : Nat) (st st' : MonitorState)
    (ev : List LogEvent) (h : run_lines_from ls i st = (none, st', ev)) :
    (ls = [] ∧ st' = st) ∨
      st'.last_printed_line_index = (i : Int) + ls.length - 1 := by
  induction ls generalizing i st ev with
  | nil =>
    simp only [run_lines_from, Prod.mk.injEq] at h
    exact Or.inl ⟨rfl, h.2.1.symm⟩
  | cons l rest ih =>
    simp only [run_lines_from] at h
    rcases hpl : process_line i l st with ⟨r, st1, ev1⟩
    rcases r with _ | b
    · simp only [hpl, Prod.mk.injEq] at h
      rcases hr : run_lines_from rest (i + 1) st1 with ⟨r2, st2, ev2⟩
      rw [hr] at h
      simp only at h
      obtain ⟨h1, h2, h3⟩ := h
      subst h2
      rcases ih (i + 1) st1 ev2 (by rw [hr, h1]) with ⟨he, hst⟩ | hlast
      · subst hst
        refine Or.inr ?_
        rw [process_line_none_last i l st _ ev1 hpl, he]
        simp
      · refine Or.inr ?_
        rw [hlast]
        simp only [List.length_cons]
        push_cast
        ring
    · simp only [hpl, Prod.mk.injEq] at h
      exact absurd h.1 (by simp)

/-- The consumed index never decreases across one full poll of the
status file. -/
lemma process_file_mono (lines : List Line) (st : MonitorState) :
    st.last_printed_line_index ≤
      (process_file lines st).2.1.last_printed_line_index := by
  simp only [process_file]
  split
  next hspi =>
    apply run_lines_from_mono
    have h0 : (0:Int) ≤ max (find_solution_progress_section lines + 2)
        (st.last_printed_line_index + 1) :=
      le_trans (by omega) (le_max_left _ _)
    rw [Int.toNat_of_nonneg h0]
    exact lt_of_lt_of_le (by omega) (le_max_right _ _)
  next hspi =>
    simp

/-- The consumed index never decreases across a whole session. -/
lemma monitor_run_mono (polls : List (Option (List Line))) (st : MonitorState) :
    st.last_printed_line_index ≤
      (monitor_run polls st).2.1.last_printed_line_index := by
  induction polls generalizing st with
  | nil => simp [monitor_run]
  | cons f fs ih =>
    simp only [monitor_run]
    rcases hps : poll_step f st with ⟨r, st1, ev1⟩
    have hst1 : st.last_printed_line_index ≤ st1.last_printed_line_index := by
      rcases f with _ | lines
      · simp only [poll_step, Prod.mk.injEq] at hps
        exact le_of_eq (congrArg MonitorState.last_printed_line_index hps.2.1)
      · simp only [poll_step] at hps
        have hmono := process_file_mono lines st
        rw [hps] at hmono
        exact hmono
    rcases r with _ | b
    · simp only [hps]
      rcases hr : monitor_run fs st1 with ⟨r2, st2, ev2⟩
      have h2 := ih st1
      rw [hr] at h2
      simp only at h2 ⊢
      omega
    · simp only [hps]
      exact hst1

/-- Re-polling the same complete file after a completed pass consumes
nothing: no line is classified, emitted or fed to the tracker again, and
the state is unchanged. -/
lemma process_file_idempotent (lines : List Line) (st st' : MonitorState)
    (ev : List LogEvent) (h : process_file lines st = (none, st', ev)) :
    process_file lines st' = (none, st', []) := by
  simp only [process_file] at h ⊢
  split at h
  case isTrue hspi =>
    rw [if_pos hspi]
    rcases run_lines_from_none_last _ _ _ _ _ h with ⟨hnil, hst⟩ | hlast
    · subst hst
      rw [hnil]
      rfl
    · have hd : (lines.drop (max (find_solution_progress_section lines + 2)
          (st.last_printed_line_index + 1)).toNat).length
          = lines.length - (max (find_solution_progress_section lines + 2)
            (st.last_printed_line_index + 1)).toNat := List.length_drop _ _
      rw [hd] at hlast
      have hL : lines.length ≤ (max (find_solution_progress_section lines + 2)
          (st'.last_printed_line_index + 1)).toNat := by
        have hm : st'.last_printed_line_index + 1
            ≤ max (find_solution_progress_section lines + 2)
              (st'.last_printed_line_index + 1) := le_max_right _ _
        omega
      rw [List.drop_eq_nil_of_le hL]
      rfl
  case isFalse hspi =>
    rw [if_neg hspi]

/-- C7: `last_printed_line_index` starts at `-1`, never decreases over a
poll nor over a whole session, and re-reading the same complete file on
a later poll processes no already-consumed line: it emits nothing,
changes nothing, and feeds nothing to the tracker. -/
theorem C7_consumption_monotone_idempotent :
    initial_state.last_printed_line_index = -1 ∧
    (∀ (lines : List Line) (st : MonitorState),
      st.last_printed_line_index ≤
        (process_file lines st).2.1.last_printed_line_index) ∧
    (∀ (polls : List (Option (List Line))) (st : MonitorState),
      st.last_printed_line_index ≤
        (monitor_run polls st).2.1.last_printed_line_index) ∧
    (∀ (lines : List Line) (st st' : MonitorState) (ev : List LogEvent),
      process_file lines st = (none, st', ev) →
      process_file lines st' = (none, st', [])) :=
  ⟨rfl, process_file_mono, monitor_run_mono, process_file_idempotent⟩

/-- C7 witness: a first full poll of a three-line file consumes the
noise line; a second poll of the same file consumes and emits nothing. -/
theorem C7_witness :
    process_file [anchorLine, fillerLine, noiseLine]
      (⟨2, false, none, none, 0⟩ : MonitorState)
      = (none, (⟨2, false, none, none, 0⟩ : MonitorState), []) :=
  C7_consumption_monotone_idempotent.2.2.2 [anchorLine, fillerLine, noiseLine]
    initial_state ⟨2, false, none, none, 0⟩ [LogEvent.raw noiseLine] (by decide)

/-! ## Tracker lemmas -/

/-- The step before any sample was seen: the first sample only seeds
`previous_ke`. -/
lemma tracker_step_prev_none (st : TrackerState) (ke : ℚ)
    (hp : st.previous_ke = none) :
    tracker_step st ke = (⟨some ke, st.min_ke, st.cnt⟩, false) := by
  rcases st with ⟨prev, minKe, cnt⟩
  simp only at hp
  subst hp
  simp [tracker_step, check_ke_minimum]

/-- The first tracked sample: no minimum yet, so it becomes the minimum
and the streak resets. -/
lemma tracker_step_min_none (st : TrackerState) (ke p : ℚ)
    (hp : st.previous_ke = some p) (hm : st.min_ke = none) :
    tracker_step st ke = (⟨some ke, some ke, 0⟩, false) := by
  rcases st with ⟨prev, minKe, cnt⟩
  simp only at hp hm
  subst hp; subst hm
  simp [tracker_step, check_ke_minimum]

/-- A new minimum: recorded, streak reset, never a stop. -/
lemma tracker_step_lt_min (st : TrackerState) (ke p m : ℚ)
    (hp : st.previous_ke = some p) (hm : st.min_ke = some m) (h1 : ke < m) :
    tracker_step st ke = (⟨some ke, some ke, 0⟩, false) := by
  rcases st with ⟨prev, minKe, cnt⟩
  simp only at hp hm
  subst hp; subst hm
  simp [tracker_step, check_ke_minimum, h1]

/-- A strict increase that does not yet reach the threshold: streak
increments, no stop. -/
lemma tracker_step_incr (st : TrackerState) (ke p m : ℚ)
    (hp : st.previous_ke = some p) (hm : st.min_ke = some m)
    (h1 : ¬ ke < m) (h2 : p < ke) (h3 : st.cnt + 1 < 3) :
    tracker_step st ke = (⟨some ke, some m, st.cnt + 1⟩, false) := by
  rcases st with ⟨prev, minKe, cnt⟩
  simp only at hp hm ⊢
  subst hp; subst hm
  simp [tracker_step, check_ke_minimum, h1, h2, Nat.not_le.mpr h3]

/-- The third consecutive strict increase: the stop signal fires. -/
lemma tracker_step_stop (st : TrackerState) (ke p m : ℚ)
    (hp : st.previous_ke = some p) (hm : st.min_ke = some m)
    (h1 : ¬ ke < m) (h2 : p < ke) (h3 : 3 ≤ st.cnt + 1) :
    tracker_step st ke = (⟨some p, some m, st.cnt + 1⟩, true) := by
  rcases st with ⟨prev, minKe, cnt⟩
  simp only at hp hm ⊢
  subst hp; subst hm
  simp [tracker_step, check_ke_minimum, h1, h2, h3]

/-- A plateau or a non-minimal decrease: streak reset, no stop. -/
lemma tracker_step_flat (st : TrackerState) (ke p m : ℚ)
    (hp : st.previous_ke = some p) (hm : st.min_ke = some m)
    (h1 : ¬ ke < m) (h2 : ¬ p < ke) :
    tracker_step st ke = (⟨some ke, some m, 0⟩, false) := by
  rcases st with ⟨prev, minKe, cnt⟩
  simp only at hp hm
  subst hp; subst hm
  simp [tracker_step, check_ke_minimum, h1, h2]

/-- Minimum of a list of samples (`none` for the empty list). -/
def listMin : List ℚ → Option ℚ
  | [] => none
  | x :: xs => some (xs.foldl min x)

/-- Minimum tracked so far (`mo`) combined with further samples. -/
def combineMin (mo : Option ℚ) (l : List ℚ) : Option ℚ :=
  match mo with
  | some m => some (l.foldl min m)
  | none => listMin l

/-- Peeling one sample off `combineMin`. -/
lemma combineMin_cons (mo : Option ℚ) (ke : ℚ) (l : List ℚ) :
    combineMin mo (ke :: l) =
      combineMin (some (match mo with | none => ke | some m => min m ke)) l := by
  rcases mo with _ | m <;> simp [combineMin, listMin]

/-- The running-minimum update of one tracker step, once a previous
sample exists. -/
lemma tracker_step_min (st : TrackerState) (ke p : ℚ)
    (hp : st.previous_ke = some p) :
    (tracker_step st ke).1.min_ke =
      some (match st.min_ke with | none => ke | some m => min m ke) := by
  rcases hm : st.min_ke with _ | m
  · rw [tracker_step_min_none st ke p hp hm]
  · by_cases h1 : ke < m
    · rw [tracker_step_lt_min st ke p m hp hm h1]
      simp [min_eq_right h1.le]
    · by_cases h2 : p < ke
      · by_cases h3 : 3 ≤ st.cnt + 1
        · rw [tracker_step_stop st ke p m hp hm h1 h2 h3]
          simp [min_eq_left (not_lt.mp h1)]
        · rw [tracker_step_incr st ke p m hp hm h1 h2 (by omega)]
          simp [min_eq_left (not_lt.mp h1)]
      · rw [tracker_step_flat st ke p m hp hm h1 h2]
        simp [min_eq_left (not_lt.mp h1)]

/-- A non-stopping step records the sample as the new previous sample. -/
lemma tracker_step_prev (st : TrackerState) (ke : ℚ)
    (h : (tracker_step st ke).2 = false) :
    (tracker_step st ke).1.previous_ke = some ke := by
  simp only [tracker_step] at h ⊢
  rcases hc : check_ke_minimum ke st.previous_ke st.min_ke st.cnt with ⟨m', c', ex, ev⟩
  cases ex
  · rfl
  · rw [hc] at h
    exact Bool.noConfusion h

/-- The tracked minimum over a run that stops, if at all, only on its
last sample. -/
lemma tracker_run_aux_min (rest : List ℚ) (st : TrackerState) (k : Nat) (p : ℚ)
    (hp : st.previous_ke = some p) (st' : TrackerState) (stop? : Option Nat)
    (h : tracker_run_aux rest st k = (st', stop?))
    (hstop : stop? = none ∨ stop? = some (k + rest.length)) :
    st'.min_ke = combineMin st.min_ke rest := by
  induction rest generalizing st k p with
  | nil =>
    simp only [tracker_run_aux, Prod.mk.injEq] at h
    rw [← h.1]
    rcases st.min_ke with _ | m <;> simp [combineMin, listMin]
  | cons ke rest' ih =>
    simp only [tracker_run_aux] at h
    rcases hs : tracker_step st ke with ⟨st1, ex⟩
    rw [hs] at h
    cases ex
    · have hex : (tracker_step st ke).2 = false := by rw [hs]
      have hp1 : st1.previous_ke = some ke := by
        have hpr := tracker_step_prev st ke hex
        rw [hs] at hpr
        exact hpr
      have hmin1 : st1.min_ke =
          some (match st.min_ke with | none => ke | some m => min m ke) := by
        have hm := tracker_step_min st ke p hp
        rw [hs] at hm
        exact hm
      have hstop' : stop? = none ∨ stop? = some ((k + 1) + rest'.length) := by
        rcases hstop with h0 | h0
        · exact Or.inl h0
        · right; rw [h0]; congr 1; simp only [List.length_cons]; omega
      have hrec := ih st1 (k + 1) ke hp1 h hstop'
      rw [combineMin_cons, ← hmin1]
      exact hrec
    · simp only [Prod.mk.injEq] at h
      obtain ⟨h1, h2⟩ := h
      rcases hstop with h0 | h0
      · rw [← h2] at h0; cases h0
      · rw [← h2] at h0
        have hr : rest' = [] := by
          injection h0 with h0'
          have hlen : rest'.length = 0 := by
            simp only [List.length_cons] at h0'
            omega
          exact List.eq_nil_of_length_eq_zero hlen
        subst hr
        rw [← h1]
        have hmin1 := tracker_step_min st ke p hp
        rw [hs] at hmin1
        simp only at hmin1
        rw [hmin1]
        rcases st.min_ke with _ | m <;> simp [combineMin, listMin]

/-- The tracked minimum after `k` processed samples equals the minimum
of samples 2..k (and is absent while fewer than two samples were
processed). -/
lemma tracker_run_min (kes : List ℚ) (st' : TrackerState) (stop? : Option Nat)
    (h : tracker_run kes = (st', stop?))
    (hstop : stop? = none ∨ stop? = some kes.length) :
    st'.min_ke = listMin (kes.drop 1) := by
  rcases kes with _ | ⟨x, t⟩
  · simp only [tracker_run, tracker_run_aux, Prod.mk.injEq] at h
    rw [← h.1]
    rfl
  · simp only [tracker_run, tracker_run_aux] at h
    rw [tracker_step_prev_none initial_tracker x rfl] at h
    have hstop' : stop? = none ∨ stop? = some (1 + t.length) := by
      rcases hstop with h0 | h0
      · exact Or.inl h0
      · right; rw [h0]; congr 1; simp only [List.length_cons]; omega
    have := tracker_run_aux_min t ⟨some x, none, 0⟩ 1 x rfl st' stop? h hstop'
    rw [this]
    rfl

/-- A fold of `min` is below its seed and every element. -/
lemma foldl_min_le (l : List ℚ) (a : ℚ) :
    l.foldl min a ≤ a ∧ ∀ x ∈ l, l.foldl min a ≤ x := by
  induction l generalizing a with
  | nil => simp
  | cons y ys ih =>
    simp only [List.foldl_cons]
    constructor
    · exact le_trans (ih (min a y)).1 (min_le_left a y)
    · intro x hx
      rcases List.mem_cons.mp hx with rfl | hx'
      · exact le_trans (ih (min a x)).1 (min_le_right a x)
      · exact (ih (min a y)).2 x hx'

/-- `listMin` is a lower bound of its list. -/
lemma listMin_le (l : List ℚ) (m : ℚ) (h : listMin l = some m) :
    ∀ x ∈ l, m ≤ x := by
  rcases l with _ | ⟨y, ys⟩
  · intro x hx; cases hx
  · simp only [listMin, Option.some.injEq] at h
    intro x hx
    rcases List.mem_cons.mp hx with rfl | hx'
    · rw [← h]; exact (foldl_min_le ys x).1
    · rw [← h]; exact (foldl_min_le ys y).2 x hx'

/-! ## Claim C5 -/

/-- C5: for any sequence of samples of which the tracker processed all
(no stop, or a stop exactly on the last), `minimum_kinetic_energy`
equals the minimum of samples 2..k, and after a single sample (or none)
it is still absent — the first sample only seeds `previous_ke` and is
never included in minimum tracking. -/
theorem C5_min_equals_tail_min :
    (∀ (kes : List ℚ) (st' : TrackerState) (stop? : Option Nat),
      tracker_run kes = (st', stop?) →
      (stop? = none ∨ stop? = some kes.length) →
      st'.min_ke = listMin (kes.drop 1)) ∧
    (∀ (x : ℚ), (tracker_run [x]).1.min_ke = none) :=
  ⟨tracker_run_min, fun _ => rfl⟩

/-- C5 witness: after the samples 10, 8, 6 the tracked minimum is the
minimum of the second and third samples. -/
theorem C5_witness :
    (⟨some 6, some 6, 0⟩ : TrackerState).min_ke =
      listMin (([10, 8, 6] : List ℚ).drop 1) :=
  C5_min_equals_tail_min.1 [10, 8, 6] ⟨some 6, some 6, 0⟩ none (by decide)
    (Or.inl rfl)

/-! ## Claim C4 -/

/-- C4 counterexample: feeding the samples 5 then 10 leaves
`minimum_kinetic_energy = 10`, which is not below the very first
observed sample 5. -/
theorem C4_counterexample :
    (tracker_run [(5:ℚ), 10]).1.min_ke = some 10 ∧ ¬ ((10:ℚ) ≤ 5) := by
  decide

/-- C4 (amended): whenever `minimum_kinetic_energy` is present it is a
lower bound of every kinetic-energy sample observed from the second
sample onward — the very first sample only seeds `previous_ke` and is
excluded from the invariant. -/
theorem C4_corrected :
    ∀ (kes : List ℚ) (st' : TrackerState) (stop? : Option Nat) (m : ℚ),
      tracker_run kes = (st', stop?) →
      (stop? = none ∨ stop? = some kes.length) →
      st'.min_ke = some m →
      ∀ x ∈ kes.drop 1, m ≤ x := by
  intro kes st' stop? m h hstop hm x hx
  rw [tracker_run_min kes st' stop? h hstop] at hm
  exact listMin_le _ m hm x hx

/-- C4 witness: after the samples 5, 4, 3 the minimum 3 is below the
second sample 4. -/
theorem C4_witness : (3:ℚ) ≤ 4 :=
  C4_corrected [5, 4, 3] ⟨some 3, some 3, 0⟩ none 3 (by decide) (Or.inl rfl)
    (by decide) 4 (by decide)

/-! ## Claim C6 -/

/-- C6: the stop signal fires exactly when the processed sample is the
third consecutive strict increase over its immediate predecessor, with
increases counted only on samples that are not new minima (step-level
iff); a new minimum resets the streak, and a non-minimal plateau or
decrease resets the streak; on the two reference sequences the stop
fires exactly on the sixth resp. seventh sample and never earlier, and
at monitor level the early stop is returned as a successful outcome. -/
theorem C6_early_stop_law :
    (∀ (st : TrackerState) (ke p : ℚ), st.previous_ke = some p →
      ((tracker_step st ke).2 = true ↔
        ∃ m, st.min_ke = some m ∧ ¬ ke < m ∧ p < ke ∧ 2 ≤ st.cnt)) ∧
    (∀ (st : TrackerState) (ke p m : ℚ), st.previous_ke = some p →
      st.min_ke = some m → ke < m →
      tracker_step st ke = (⟨some ke, some ke, 0⟩, false)) ∧
    (∀ (st : TrackerState) (ke p m : ℚ), st.previous_ke = some p →
      st.min_ke = some m → ¬ ke < m → ke ≤ p →
      tracker_step st ke = (⟨some ke, some m, 0⟩, false)) ∧
    (tracker_run [10, 8, 6, 7, 9, 11]).2 = some 6 ∧
    (tracker_run [10, 8, 9, 7, 9, 10, 11]).2 = some 7 ∧
    (process_file staEarlyStop initial_state).1 = some true := by
  refine ⟨?_, ?_, ?_, by decide, by decide, by decide⟩
  · intro st ke p hp
    rcases hm : st.min_ke with _ | m
    · rw [tracker_step_min_none st ke p hp hm]
      simp
    · by_cases h1 : ke < m
      · rw [tracker_step_lt_min st ke p m hp hm h1]
        refine iff_of_false (by simp) ?_
        rintro ⟨m', hm', hnot, -, -⟩
        rw [Option.some_inj] at hm'
        subst hm'
        exact hnot h1
      · by_cases h2 : p < ke
        · by_cases h3 : 3 ≤ st.cnt + 1
          · rw [tracker_step_stop st ke p m hp hm h1 h2 h3]
            exact iff_of_true rfl ⟨m, rfl, h1, h2, by omega⟩
          · rw [tracker_step_incr st ke p m hp hm h1 h2 (by omega)]
            refine iff_of_false (by simp) ?_
            rintro ⟨m', -, -, -, hcnt⟩
            omega
        · rw [tracker_step_flat st ke p m hp hm h1 h2]
          refine iff_of_false (by simp) ?_
          rintro ⟨m', -, -, hlt, -⟩
          exact h2 hlt
  · intro st ke p m hp hm h1
    exact tracker_step_lt_min st ke p m hp hm h1
  · intro st ke p m hp hm h1 h2
    exact tracker_step_flat st ke p m hp hm h1 (not_lt.mpr h2)

/-- C6 witness: from a state with minimum 6, previous sample 9 and a
streak of 2, the sample 11 fires the stop. -/
theorem C6_witness : (tracker_step ⟨some 9, some 6, 2⟩ 11).2 = true :=
  (C6_early_stop_law.1 ⟨some 9, some 6, 2⟩ 11 9 rfl).mpr
    ⟨6, rfl, by decide, by decide, by decide⟩

/-! ## Claim C10 -/

/-- States reachable by the tracker from its initial state: before the
first sample nothing is tracked, and before the second sample there is
no minimum and no streak. -/
def tracker_wf (st : TrackerState) : Prop :=
  (st.previous_ke = none → st.min_ke = none ∧ st.cnt = 0) ∧
  (st.min_ke = none → st.cnt = 0)

/-- Least number of further samples before a stop can possibly fire. -/
def stop_need (st : TrackerState) : Nat :=
  match st.previous_ke, st.min_ke with
  | none, _ => 5
  | some _, none => 4
  | some _, some _ => max (3 - st.cnt) 1

/-- A stopping step can only happen when one more sample sufficed. -/
lemma tracker_step_stop_need (st : TrackerState) (ke : ℚ) (hwf : tracker_wf st)
    (h : (tracker_step st ke).2 = true) : stop_need st = 1 := by
  rcases hp : st.previous_ke with _ | p
  · obtain ⟨hm, hc⟩ := hwf.1 hp
    rw [tracker_step_prev_none st ke hp] at h
    exact Bool.noConfusion h
  · rcases hm : st.min_ke with _ | m
    · rw [tracker_step_min_none st ke p hp hm] at h
      exact Bool.noConfusion h
    · by_cases h1 : ke < m
      · rw [tracker_step_lt_min st ke p m hp hm h1] at h
        exact Bool.noConfusion h
      · by_cases h2 : p < ke
        · by_cases h3 : 3 ≤ st.cnt + 1
          · simp only [stop_need, hp, hm]
            omega
          · rw [tracker_step_incr st ke p m hp hm h1 h2 (by omega)] at h
            exact Bool.noConfusion h
        · rw [tracker_step_flat st ke p m hp hm h1 h2] at h
          exact Bool.noConfusion h

/-- A non-stopping step preserves reachability and lowers the distance
to a possible stop by at most one. -/
lemma tracker_step_wf (st : TrackerState) (ke : ℚ) (hwf : tracker_wf st)
    (h : (tracker_step st ke).2 = false) :
    tracker_wf (tracker_step st ke).1 ∧
      stop_need st ≤ stop_need (tracker_step st ke).1 + 1 := by
  rcases hp : st.previous_ke with _ | p
  · obtain ⟨hm, hc⟩ := hwf.1 hp
    rw [tracker_step_prev_none st ke hp, hm]
    refine ⟨⟨by simp, by simp [hc]⟩, ?_⟩
    simp [stop_need, hp, hm]
  · rcases hm : st.min_ke with _ | m
    · have hc : st.cnt = 0 := hwf.2 hm
      rw [tracker_step_min_none st ke p hp hm]
      refine ⟨⟨by simp, by simp⟩, ?_⟩
      simp only [stop_need, hp, hm]
      omega
    · by_cases h1 : ke < m
      · rw [tracker_step_lt_min st ke p m hp hm h1]
        refine ⟨⟨by simp, by simp⟩, ?_⟩
        simp only [stop_need, hp, hm]
        omega
      · by_cases h2 : p < ke
        · by_cases h3 : 3 ≤ st.cnt + 1
          · rw [tracker_step_stop st ke p m hp hm h1 h2 h3] at h
            exact Bool.noConfusion h
          · rw [tracker_step_incr st ke p m hp hm h1 h2 (by omega)]
            refine ⟨⟨by simp, by simp⟩, ?_⟩
            simp only [stop_need, hp, hm]
            omega
        · rw [tracker_step_flat st ke p m hp hm h1 h2]
          refine ⟨⟨by simp, by simp⟩, ?_⟩
          simp only [stop_need, hp, hm]
          omega

/-- From any reachable state, a stop at sample `j` needs at least
`stop_need` further samples beyond the `k` already processed. -/
lemma tracker_run_aux_stop_ge (l : List ℚ) (st : TrackerState) (k : Nat)
    (hwf : tracker_wf st) (st' : TrackerState) (j : Nat)
    (h : tracker_run_aux l st k = (st', some j)) :
    k + stop_need st ≤ j := by
  induction l generalizing st k with
  | nil =>
    simp only [tracker_run_aux, Prod.mk.injEq] at h
    exact Option.noConfusion h.2
  | cons ke rest ih =>
    simp only [tracker_run_aux] at h
    rcases hs : tracker_step st ke with ⟨st1, ex⟩
    rw [hs] at h
    cases ex
    · have hex : (tracker_step st ke).2 = false := by rw [hs]
      obtain ⟨hwf1, hneed⟩ := tracker_step_wf st ke hwf hex
      rw [hs] at hwf1 hneed
      simp only at hwf1 hneed
      have hrec := ih st1 (k + 1) hwf1 h
      omega
    · have hex : (tracker_step st ke).2 = true := by rw [hs]
      have hneed := tracker_step_stop_need st ke hwf hex
      simp only [Prod.mk.injEq] at h
      obtain ⟨-, h2⟩ := h
      rw [Option.some_inj] at h2
      omega

/-- C10: the early-stop signal can never fire while processing any of
the first four samples; the fifth sample is the earliest possible stop,
and the bound is attained. -/
theorem C10_no_stop_before_fifth :
    (∀ (kes : List ℚ) (st' : TrackerState) (j : Nat),
      tracker_run kes = (st', some j) → 5 ≤ j) ∧
    (tracker_run [10, 1, 2, 3, 4]).2 = some 5 := by
  constructor
  · intro kes st' j h
    have := tracker_run_aux_stop_ge kes initial_tracker 0
      ⟨fun _ => ⟨rfl, rfl⟩, fun _ => rfl⟩ st' j h
    simpa [stop_need, initial_tracker] using this
  · decide

/-- C10 witness: the earliest-stop bound applied to the sequence
10, 1, 2, 3, 4, which stops exactly on its fifth sample. -/
theorem C10_witness : 5 ≤ 5 :=
  C10_no_stop_before_fifth.1 [10, 1, 2, 3, 4] ⟨some 3, some 1, 3⟩ 5 (by decide)
